import Mathlib

/-!
Verification of the cdp-rs wire-protocol engine against its specification.

The definitions below are a shallow embedding of the Rust sources
(`src/websocket_target.rs`, `src/websocket.rs`, `src/cli.rs`): bytes are
`Nat` values below 256, byte streams are `List Nat`, fallible operations
return `Option` or `Except String`, and the asynchronous I/O plumbing is
replaced by explicit byte lists / explicit state passing.
-/

set_option maxRecDepth 100000

namespace CdpRs

/-- WebSocket frame opcode, mirroring `enum Opcode` in `websocket_target.rs`. -/
inductive Opcode
  | ContinuationFrame
  | TextFrame
  | BinaryFrame
  | Close
  | Ping
  | Pong
deriving DecidableEq, Repr

/-- Numeric value of an opcode (the discriminant used by `frame.opcode as u8`). -/
def Opcode.toNat : Opcode → Nat
  | .ContinuationFrame => 0
  | .TextFrame => 1
  | .BinaryFrame => 2
  | .Close => 8
  | .Ping => 9
  | .Pong => 10

/-- Mirrors `Opcode::from_u8` of `websocket_target.rs` (invalid codes fail). -/
def Opcode.from_u8 (value : Nat) : Option Opcode :=
  if value = 0 then some .ContinuationFrame
  else if value = 1 then some .TextFrame
  else if value = 2 then some .BinaryFrame
  else if value = 8 then some .Close
  else if value = 9 then some .Ping
  else if value = 10 then some .Pong
  else none

/-- Mirrors `struct WebSocketFrame` of `websocket_target.rs`.
`masking_key` holds the four key bytes when present. -/
structure WebSocketFrame where
  fin : Bool
  opcode : Opcode
  mask : Bool
  payload_len : Nat
  masking_key : Option (List Nat)
deriving DecidableEq, Repr

/-- Bytes written by `write_single_frame` of `websocket_target.rs`
(identical to `write_header` of `websocket.rs`): the two leading header
bytes, the length extension chosen by the three-tier rule exactly as the
Rust code fills `buf`, then the masking key when present. -/
def write_single_frame_bytes (frame : WebSocketFrame) : List Nat :=
  let b0 := ((if frame.fin then 1 else 0) <<< 7) ||| frame.opcode.toNat
  let b1m := (if frame.mask then 1 else 0) <<< 7
  let len := frame.payload_len
  let header :=
    if len ≤ 125 then
      [b0, b1m ||| len]
    else if len ≤ 65535 then
      [b0, b1m ||| 126, len &&& 255, (len >>> 8) &&& 255]
    else
      [b0, b1m ||| 127,
       (len >>> 0) &&& 255, (len >>> 8) &&& 255, (len >>> 16) &&& 255, (len >>> 24) &&& 255,
       (len >>> 32) &&& 255, (len >>> 40) &&& 255, (len >>> 48) &&& 255, (len >>> 56) &&& 255]
  match frame.masking_key with
  | some k => header ++ k
  | none => header

/-- Mirrors the masking loop of `send_text_frame`:
`payload[i] = data[i] ^ masking_key[i % 4]`, starting at index `i`. -/
def mask_bytes (masking_key : List Nat) : Nat → List Nat → List Nat
  | _, [] => []
  | i, b :: rest => (b ^^^ masking_key.getD (i % 4) 0) :: mask_bytes masking_key (i + 1) rest

/-- The byte stream produced by `send_text_frame` of `websocket_target.rs`
for payload `data`, with the (in the Rust code randomly drawn) masking key
made explicit: header and key via `write_single_frame`, then the masked
payload. -/
def send_text_frame_bytes (masking_key : List Nat) (data : List Nat) : List Nat :=
  let payload := mask_bytes masking_key 0 data
  let frame : WebSocketFrame :=
    { fin := true, opcode := .TextFrame, mask := true,
      payload_len := payload.length, masking_key := some masking_key }
  write_single_frame_bytes frame ++ payload

/-- Mirrors `read_single_frame` of `websocket_target.rs` (identical to
`read_header` of `websocket.rs`): parse one frame header off the front of
`input`, returning the header and the remaining bytes; short input models a
failed `read_exact`. -/
def read_single_frame (input : List Nat) : Option (WebSocketFrame × List Nat) :=
  match input with
  | b0 :: b1 :: rest => do
    let opcode ← Opcode.from_u8 (b0 &&& 15)
    let fin := b0 &&& 128 == 128
    let mask := b1 &&& 128 == 128
    let base := b1 &&& 127
    let (payload_len, rest2) ←
      if base ≤ 125 then
        some (base, rest)
      else if base = 126 then
        match rest with
        | e0 :: e1 :: r => some ((e0 <<< 8) ||| e1, r)
        | _ => none
      else
        match rest with
        | e0 :: e1 :: e2 :: e3 :: e4 :: e5 :: e6 :: e7 :: r =>
          some ((e0 <<< 56) ||| (e1 <<< 48) ||| (e2 <<< 40) ||| (e3 <<< 32) |||
                (e4 <<< 24) ||| (e5 <<< 16) ||| (e6 <<< 8) ||| (e7 <<< 0), r)
        | _ => none
    let (masking_key, rest3) ←
      if mask then
        match rest2 with
        | k0 :: k1 :: k2 :: k3 :: r => some (some [k0, k1, k2, k3], r)
        | _ => none
      else
        some (none, rest2)
    some ({ fin := fin, opcode := opcode, mask := mask,
            payload_len := payload_len, masking_key := masking_key }, rest3)
  | _ => none

/-- The decode path of claim C1: `read_single_frame`, then read exactly
`payload_len` payload bytes (failing, like `read_exact`, when fewer are
available) and unmask them with the frame's masking key.  The XOR unmask is
the same index-mod-4 loop as the masking in `send_text_frame` (spec §4.2);
the repository's own receive path rejects masked frames instead of
unmasking them. -/
def read_frame_and_payload (input : List Nat) : Option (WebSocketFrame × List Nat) := do
  let (frame, rest) ← read_single_frame input
  if frame.payload_len ≤ rest.length then
    let raw := rest.take frame.payload_len
    let payload :=
      match frame.masking_key with
      | some k => mask_bytes k 0 raw
      | none => raw
    some (frame, payload)
  else
    none

/-- Modelled from the spec: the frame-header wire layout of spec §6 —
`byte0 = fin<<7 | opcode`, `byte1 = mask<<7 | length-field`, a length in
0..125 stored literally, a length in 126..65535 as marker 126 followed by
two big-endian bytes, a larger length as marker 127 followed by eight
big-endian bytes, then the 4-byte masking key iff mask is set. -/
def spec_frame_header_bytes (frame : WebSocketFrame) : List Nat :=
  let b0 := ((if frame.fin then 1 else 0) <<< 7) ||| frame.opcode.toNat
  let b1m := (if frame.mask then 1 else 0) <<< 7
  let len := frame.payload_len
  let header :=
    if len ≤ 125 then
      [b0, b1m ||| len]
    else if len ≤ 65535 then
      [b0, b1m ||| 126, (len >>> 8) &&& 255, len &&& 255]
    else
      [b0, b1m ||| 127,
       (len >>> 56) &&& 255, (len >>> 48) &&& 255, (len >>> 40) &&& 255, (len >>> 32) &&& 255,
       (len >>> 24) &&& 255, (len >>> 16) &&& 255, (len >>> 8) &&& 255, len &&& 255]
  match frame.masking_key with
  | some k => header ++ k
  | none => header

/-! SHA-1 and base64, mirroring the `sha1` and `base64` crates used by
`check_sec_websocket_accept` (standard RFC 3174 SHA-1 and RFC 4648 base64
with padding).  Words are `Nat` values below 2^32. -/

/-- Left rotation of a 32-bit word. -/
def rotl32 (x s : Nat) : Nat := ((x <<< s) ||| (x >>> (32 - s))) % 4294967296

/-- SHA-1 padding: append 0x80, zeros up to 56 mod 64, then the bit length
as eight big-endian bytes. -/
def sha1_pad (msg : List Nat) : List Nat :=
  let bitlen := msg.length * 8
  let zeros := (119 - msg.length % 64) % 64
  msg ++ [128] ++ List.replicate zeros 0 ++
    [(bitlen >>> 56) &&& 255, (bitlen >>> 48) &&& 255, (bitlen >>> 40) &&& 255,
     (bitlen >>> 32) &&& 255, (bitlen >>> 24) &&& 255, (bitlen >>> 16) &&& 255,
     (bitlen >>> 8) &&& 255, bitlen &&& 255]

/-- Split a byte list into 64-byte blocks (fuel-driven; call with the list
length as fuel). -/
def toBlocks : Nat → List Nat → List (List Nat)
  | 0, _ => []
  | _, [] => []
  | fuel + 1, l => l.take 64 :: toBlocks fuel (l.drop 64)

/-- Big-endian 32-bit words from bytes. -/
def bytesToWords : List Nat → List Nat
  | b0 :: b1 :: b2 :: b3 :: rest =>
    ((b0 <<< 24) ||| (b1 <<< 16) ||| (b2 <<< 8) ||| b3) :: bytesToWords rest
  | _ => []

/-- Extend the 16 block words to 80 schedule words; `acc` holds the words
produced so far, most recent first. -/
def sha1_schedule_aux : Nat → List Nat → List Nat
  | 0, acc => acc
  | n + 1, acc =>
    let wt := rotl32 ((acc.getD 2 0) ^^^ (acc.getD 7 0) ^^^ (acc.getD 13 0) ^^^ (acc.getD 15 0)) 1
    sha1_schedule_aux n (wt :: acc)

/-- The 80 schedule words of a block, in round order. -/
def sha1_schedule (w16 : List Nat) : List Nat :=
  (sha1_schedule_aux 64 w16.reverse).reverse

/-- The SHA-1 round function for round `t`. -/
def sha1_f (t b c d : Nat) : Nat :=
  if t < 20 then (b &&& c) ||| ((b ^^^ 4294967295) &&& d)
  else if t < 40 then b ^^^ c ^^^ d
  else if t < 60 then (b &&& c) ||| (b &&& d) ||| (c &&& d)
  else b ^^^ c ^^^ d

/-- The SHA-1 round constant for round `t`. -/
def sha1_k (t : Nat) : Nat :=
  if t < 20 then 1518500249
  else if t < 40 then 1859775393
  else if t < 60 then 2400959708
  else 3395469782

/-- One SHA-1 round applied to the working state `(a, b, c, d, e)`. -/
def sha1_round (t w : Nat) (s : Nat × Nat × Nat × Nat × Nat) : Nat × Nat × Nat × Nat × Nat :=
  let (a, b, c, d, e) := s
  let temp := (rotl32 a 5 + sha1_f t b c d + e + sha1_k t + w) % 4294967296
  (temp, a, rotl32 b 30, c, d)

/-- Run the 80 rounds over the schedule words, starting at round `t`. -/
def sha1_rounds : Nat → List Nat → (Nat × Nat × Nat × Nat × Nat) → Nat × Nat × Nat × Nat × Nat
  | _, [], s => s
  | t, w :: ws, s => sha1_rounds (t + 1) ws (sha1_round t w s)

/-- Process one 64-byte block into the running hash state. -/
def sha1_block (h : Nat × Nat × Nat × Nat × Nat) (block : List Nat) : Nat × Nat × Nat × Nat × Nat :=
  let (a, b, c, d, e) := sha1_rounds 0 (sha1_schedule (bytesToWords block)) h
  ((h.1 + a) % 4294967296, (h.2.1 + b) % 4294967296, (h.2.2.1 + c) % 4294967296,
   (h.2.2.2.1 + d) % 4294967296, (h.2.2.2.2 + e) % 4294967296)

/-- A 32-bit word as four big-endian bytes. -/
def word_be_bytes (x : Nat) : List Nat :=
  [(x >>> 24) &&& 255, (x >>> 16) &&& 255, (x >>> 8) &&& 255, x &&& 255]

/-- The 20-byte SHA-1 digest of a byte message. -/
def sha1 (msg : List Nat) : List Nat :=
  let padded := sha1_pad msg
  let h := (toBlocks padded.length padded).foldl sha1_block
    (1732584193, 4023233417, 2562383102, 271733878, 3285377520)
  word_be_bytes h.1 ++ word_be_bytes h.2.1 ++ word_be_bytes h.2.2.1 ++
    word_be_bytes h.2.2.2.1 ++ word_be_bytes h.2.2.2.2

/-- The base64 alphabet character for a 6-bit value. -/
def b64char (n : Nat) : Char :=
  "ABCDEFGHIJKLMNOPQRSTUVWXYZabcdefghijklmnopqrstuvwxyz0123456789+/".toList.getD n 'A'

/-- Standard base64 with `=` padding, as `base64::encode`. -/
def base64_encode : List Nat → List Char
  | a :: b :: c :: rest =>
    b64char (a >>> 2) :: b64char (((a &&& 3) <<< 4) ||| (b >>> 4)) ::
      b64char (((b &&& 15) <<< 2) ||| (c >>> 6)) :: b64char (c &&& 63) :: base64_encode rest
  | [a, b] => [b64char (a >>> 2), b64char (((a &&& 3) <<< 4) ||| (b >>> 4)),
               b64char ((b &&& 15) <<< 2), '=']
  | [a] => [b64char (a >>> 2), b64char ((a &&& 3) <<< 4), '=', '=']
  | [] => []

/-- The bytes of an ASCII string (all strings involved in the handshake are
ASCII, where UTF-8 bytes coincide with code points). -/
def str_bytes (s : String) : List Nat := s.toList.map Char.toNat

/-- The fixed WebSocket GUID appended to the key (`ACCEPT_SUFFIX`). -/
def ACCEPT_SUFFIX : String := "258EAFA5-E914-47DA-95CA-C5AB0DC85B11"

/-- The accept value computed inside `check_sec_websocket_accept`:
base64(SHA-1(key ++ GUID)). -/
def compute_accept (key : String) : String :=
  String.mk (base64_encode (sha1 (str_bytes (key ++ ACCEPT_SUFFIX))))

/-- Mirrors `check_sec_websocket_accept` of `websocket_target.rs`: succeed
iff the header value bytes equal the computed accept string's bytes. -/
def check_sec_websocket_accept (key : String) (accept_value : List Nat) : Except String Unit :=
  if accept_value = str_bytes (compute_accept key) then
    Except.ok ()
  else
    Except.error "Invalid Sec-WebSocket-Accept"

/-- Decidable equality of handshake-check results, for concrete evaluation. -/
instance : DecidableEq (Except String Unit) := fun
  | .ok (), .ok () => isTrue rfl
  | .ok (), .error _ => isFalse (by simp)
  | .error _, .ok () => isFalse (by simp)
  | .error a, .error b =>
    if h : a = b then isTrue (by rw [h]) else isFalse (by simp [h])

/-- A parsed handshake response as `httparse` hands it to `connect`:
an optional status code and the list of header name/value pairs
(values as raw bytes). -/
structure HttpResponse where
  code : Option Nat
  headers : List (String × List Nat)

/-- The header loop of `connect`: check `Sec-WebSocket-Accept` headers via
`check_sec_websocket_accept`, propagating the first failure (the `?`
operator); all other headers are skipped. -/
def verify_headers (key : String) : List (String × List Nat) → Except String Unit
  | [] => Except.ok ()
  | h :: rest =>
    if h.1 = "Sec-WebSocket-Accept" then
      match check_sec_websocket_accept key h.2 with
      | Except.ok _ => verify_headers key rest
      | Except.error e => Except.error e
    else
      verify_headers key rest

/-- The response-validation logic of `connect` in `websocket_target.rs`
(identical in `connect_stream` of `websocket.rs`) after `httparse` has
produced a complete response: reject a status other than 101
(`response.code.unwrap_or(0) != 101`), then run the header loop.
Success means `connect` goes on to return the connected target. -/
def connect_check (key : String) (resp : HttpResponse) : Except String Unit :=
  if resp.code.getD 0 ≠ 101 then
    Except.error "Response != 101"
  else
    verify_headers key resp.headers

/-- A JSON value, standing in for `serde_json::Value`. -/
inductive Json
  | null
  | bool (b : Bool)
  | num (n : Int)
  | str (s : String)
  | arr (items : List Json)
  | obj (fields : List (String × Json))

/-- Whether a JSON value is an object with a top-level `id` field — the
classification criterion named by the spec (presence of `id` ⇒ reply). -/
def hasIdField : Json → Bool
  | .obj fields => fields.any (fun f => f.1 == "id")
  | _ => false

/-- The outcome of one iteration of the `receive_frames` loop in
`websocket_target.rs` on a decoded frame, mirroring the code's order:
`receive_single_frame` errors on a masked frame before the payload is
touched; then `assert!(frame.fin)` fires; then the payload is parsed as
JSON (`parsed` is the parse result), a failure erroring the loop; a parsed
value is pretty-printed to stdout. -/
inductive RecvOutcome
  | maskError
  | fragmentationPanic
  | jsonError
  | printed (v : Json)

/-- One iteration of `receive_frames` on a frame with the given `fin` and
`mask` flags whose payload parses to `parsed` (the pretty-printing of the
value by `serde_json::to_string_pretty` is external and kept as the value
itself). -/
def handle_inbound (fin mask : Bool) (parsed : Option Json) : RecvOutcome :=
  if mask then .maskError
  else if !fin then .fragmentationPanic
  else
    match parsed with
    | none => .jsonError
    | some v => .printed v

/-- The handling path an inbound frame is routed to: the single
pretty-print path of `receive_frames`, or loop termination by
panic/error.  The code contains no other path. -/
inductive InboundRoute
  | printPretty
  | terminateError
deriving DecidableEq

/-- Which path `receive_frames` hands a frame to. -/
def inbound_route (fin mask : Bool) (parsed : Option Json) : InboundRoute :=
  match handle_inbound fin mask parsed with
  | .printed _ => .printPretty
  | _ => .terminateError

/-- The spec's reply-classification example `{"id":7,"result":{}}`. -/
def replyExample : Json := .obj [("id", .num 7), ("result", .obj [])]

/-- The spec's event-classification example
`{"method":"Page.loadEventFired","params":{}}`. -/
def eventExample : Json :=
  .obj [("method", .str "Page.loadEventFired"), ("params", .obj [])]

/-- One `call_method` step of `WebSocketTarget`: from the current
`method_id` it serializes the message with that id and stores the
incremented id (`self.method_id += 1`, a 64-bit `usize`).  Returns the id
the message was serialized with and the new state. -/
def call_method_model (method_id : Nat) : Nat × Nat :=
  (method_id, (method_id + 1) % 18446744073709551616)

/-- The `method_id` field after `n` calls on a freshly connected
`WebSocketTarget` (`connect` initializes `method_id = 0`). -/
def method_id_after : Nat → Nat
  | 0 => 0
  | n + 1 => (call_method_model (method_id_after n)).2

/-- The correlation id the `(n+1)`-th call serializes its message with. -/
def assigned_id (n : Nat) : Nat := (call_method_model (method_id_after n)).1

/-- Mirrors `struct MethodCall` as `parse_method_call` of `cli.rs` builds
it: the domain and name byte slices (which the Rust code turns into
`String`s with `String::from_utf8_unchecked`) and the params JSON value. -/
structure MethodCall where
  domain : List Nat
  name : List Nat
  params : Json

/-- Mirrors Rust's `iter().position(pred)`: the index of the first element
satisfying `pred`. -/
def position (pred : Nat → Bool) : List Nat → Option Nat
  | [] => none
  | b :: rest => if pred b then some 0 else (position pred rest).map (· + 1)

/-- Mirrors `parse_method_call` of `cli.rs`.  `pj` stands for the external
`serde_json::from_slice`; byte 46 is the dot, 40 the opening and 41 the
closing parenthesis.  The code finds the first dot, the first opening
parenthesis from the dot on, and — via `iter().rev().position`, modelled as
`position` on the reversed slice — the last closing parenthesis from the
opening one on, then slices the line's bytes.
The Rust locals are inlined: `lparen` is `dot + p`, `offset` is
`bytes.length - lparen`, `rparen` is `lparen + (offset - pos) - 1` where
`pos` is the reverse-search result, `domain` is `bytes[..dot]`, `name` is
`bytes[dot+1..lparen]` and `params_bytes` is `bytes[lparen+1..rparen]`. -/
def parse_method_call (pj : List Nat → Option Json) (bytes : List Nat) : Option MethodCall :=
  match position (· == 46) bytes with
  | none => none
  | some dot =>
    match position (· == 40) (bytes.drop dot) with
    | none => none
    | some p =>
      match position (· == 41) (bytes.drop (dot + p)).reverse with
      | none => none
      | some pos =>
        if ((bytes.drop (dot + p + 1)).take
              (dot + p + (bytes.length - (dot + p) - pos) - 1 - (dot + p + 1))).length = 0 then
          some { domain := bytes.take dot,
                 name := (bytes.drop (dot + 1)).take (dot + p - (dot + 1)),
                 params := Json.obj [] }
        else
          match pj ((bytes.drop (dot + p + 1)).take
              (dot + p + (bytes.length - (dot + p) - pos) - 1 - (dot + p + 1))) with
          | none => none
          | some params =>
            some { domain := bytes.take dot,
                   name := (bytes.drop (dot + 1)).take (dot + p - (dot + 1)),
                   params := params }

/-- A continuation byte of a multi-byte UTF-8 sequence. -/
def isCont (b : Nat) : Prop := 128 ≤ b ∧ b ≤ 191

/-- The list is the UTF-8 encoding of exactly one Unicode scalar value
(RFC 3629 well-formedness, with the E0/ED/F0/F4 second-byte
restrictions). -/
def IsUtf8Char : List Nat → Prop
  | [a] => a < 128
  | [a, b] => 194 ≤ a ∧ a ≤ 223 ∧ isCont b
  | [a, b, c] =>
    ((a = 224 ∧ 160 ≤ b ∧ b ≤ 191) ∨ (225 ≤ a ∧ a ≤ 236 ∧ isCont b) ∨
     (a = 237 ∧ 128 ≤ b ∧ b ≤ 159) ∨ (238 ≤ a ∧ a ≤ 239 ∧ isCont b)) ∧ isCont c
  | [a, b, c, d] =>
    ((a = 240 ∧ 144 ≤ b ∧ b ≤ 191) ∨ (241 ≤ a ∧ a ≤ 243 ∧ isCont b) ∨
     (a = 244 ∧ 128 ≤ b ∧ b ≤ 143)) ∧ isCont c ∧ isCont d
  | _ => False

/-- A byte list is well-formed UTF-8: a concatenation of scalar encodings.
This is the invariant of Rust's `str`/`String` that
`String::from_utf8_unchecked` requires of its argument. -/
inductive Utf8Valid : List Nat → Prop
  | nil : Utf8Valid []
  | cons (c rest : List Nat) : IsUtf8Char c → Utf8Valid rest → Utf8Valid (c ++ rest)

end CdpRs

namespace CdpRs

/-- Claim C1: encoding a masked client frame and decoding it back is claimed
to return the original payload and length for L ∈ {0, 1, 125, 126, 65535,
65536}.  It fails at L = 126: the writer stores the 2-byte extended length
least-significant-byte first, the reader decodes it big-endian, so the
decoded `payload_len` is 32256 ≠ 126 and the payload read fails — while at
L = 125 (literal length tier) the round-trip does return the payload. -/
theorem encode_decode_roundtrip_fails_at_126 :
    (read_single_frame (send_text_frame_bytes [1, 2, 3, 4] (List.replicate 126 0))).map
        (fun r => r.1.payload_len) = some 32256
    ∧ read_frame_and_payload (send_text_frame_bytes [1, 2, 3, 4] (List.replicate 126 0)) = none
    ∧ (read_frame_and_payload (send_text_frame_bytes [1, 2, 3, 4] (List.replicate 125 0))).map
        (fun r => (r.1.payload_len, r.2)) = some (125, List.replicate 125 0) := by
  decide

/-- Claim C4: the writer is claimed to store extended lengths big-endian.
At `payload_len` = 256 it emits `[129, 126, 0, 1]` — the 16-bit length with
the least significant byte first — while the specified layout is
`[129, 126, 1, 0]`. -/
theorem write_header_extended_length_not_big_endian :
    write_single_frame_bytes ⟨true, .TextFrame, false, 256, none⟩ = [129, 126, 0, 1]
    ∧ spec_frame_header_bytes ⟨true, .TextFrame, false, 256, none⟩ = [129, 126, 1, 0]
    ∧ write_single_frame_bytes ⟨true, .TextFrame, false, 256, none⟩ ≠
        spec_frame_header_bytes ⟨true, .TextFrame, false, 256, none⟩ := by
  decide

/-- Claim C8: computing the accept value over the RFC 6455 example nonce
"dGhlIHNhbXBsZSBub25jZQ==" yields exactly "s3pPLMBiTxaQ9kYGzzhZRbK+xOo=",
`check_sec_websocket_accept` succeeds on that nonce/accept pair, and fails
with that nonce for every other accept value. -/
theorem accept_value_rfc6455_example :
    compute_accept "dGhlIHNhbXBsZSBub25jZQ==" = "s3pPLMBiTxaQ9kYGzzhZRbK+xOo="
    ∧ check_sec_websocket_accept "dGhlIHNhbXBsZSBub25jZQ=="
        (str_bytes "s3pPLMBiTxaQ9kYGzzhZRbK+xOo=") = Except.ok ()
    ∧ ∀ v : List Nat, v ≠ str_bytes "s3pPLMBiTxaQ9kYGzzhZRbK+xOo=" →
        check_sec_websocket_accept "dGhlIHNhbXBsZSBub25jZQ==" v =
          Except.error "Invalid Sec-WebSocket-Accept" := by
  have h : compute_accept "dGhlIHNhbXBsZSBub25jZQ==" = "s3pPLMBiTxaQ9kYGzzhZRbK+xOo=" := by
    decide
  refine ⟨h, ?_, ?_⟩
  · simp [check_sec_websocket_accept, h]
  · intro v hv
    simp [check_sec_websocket_accept, h, hv]

/-- Witness for C8: a wrong accept value (the single byte 0) is rejected for
the example nonce. -/
theorem accept_value_rfc6455_example_witness :
    check_sec_websocket_accept "dGhlIHNhbXBsZSBub25jZQ==" [0] =
      Except.error "Invalid Sec-WebSocket-Accept" :=
  accept_value_rfc6455_example.2.2 [0] (by decide)

/-- Claim C2: the accept verification is claimed to never be skipped, and a
101 response failing it (including one lacking the header) is claimed not to
yield a connection.  In fact `connect` only checks headers that are present:
a 101 response with no `Sec-WebSocket-Accept` header passes validation
successfully — while a present-but-mismatching value is indeed fatal. -/
theorem connect_accepts_response_without_accept_header :
    connect_check "dGhlIHNhbXBsZSBub25jZQ==" ⟨some 101, []⟩ = Except.ok ()
    ∧ connect_check "dGhlIHNhbXBsZSBub25jZQ=="
        ⟨some 101, [("Sec-WebSocket-Accept", [0])]⟩ =
        Except.error "Invalid Sec-WebSocket-Accept" := by
  decide

/-- Claim C6: any handshake response whose status code is not exactly 101 —
missing codes included — makes `connect` fail with the handshake-rejected
error, whatever headers the response carries. -/
theorem connect_rejects_non_101 (key : String) (resp : HttpResponse)
    (h : resp.code.getD 0 ≠ 101) :
    connect_check key resp = Except.error "Response != 101" := by
  simp [connect_check, h]

/-- Witness for C6: a status-200 response carrying an `Upgrade` header is
rejected. -/
theorem connect_rejects_non_101_witness :
    connect_check "key0" ⟨some 200, [("Upgrade", str_bytes "websocket")]⟩ =
      Except.error "Response != 101" :=
  connect_rejects_non_101 "key0" ⟨some 200, [("Upgrade", str_bytes "websocket")]⟩ (by decide)

/-- Counterexample to claim C3: the spec's reply example (which has an `id`
field) and its event example (which lacks one) are handed by the receive
loop to one and the same path — `receive_frames` contains no id-based
classification, so the two classes are not routed differently. -/
theorem reply_and_event_share_route :
    hasIdField replyExample = true
    ∧ hasIdField eventExample = false
    ∧ inbound_route true false (some replyExample) = inbound_route true false (some eventExample)
    ∧ inbound_route true false (some replyExample) = InboundRoute.printPretty :=
  ⟨rfl, rfl, rfl, rfl⟩

/-- Claim C3 (amended): every inbound frame whose payload parses as a JSON
value is handed to the single pretty-print path, whether or not it contains
a top-level `id` field; the receive loop has no separate reply/event
routing. -/
theorem parsed_inbound_routed_uniformly (v : Json) :
    inbound_route true false (some v) = InboundRoute.printPretty := rfl

/-- Claim C7: a decoded frame with `fin = false` makes the receive loop
fail fast — it is never handed to the message path, and on an unmasked
frame (the only kind `receive_single_frame` lets through) the
fragmentation-unsupported assertion fires. -/
theorem fin_false_fails_fast (mask : Bool) (parsed : Option Json)
    (hm : mask = false) :
    inbound_route false mask parsed = InboundRoute.terminateError
    ∧ handle_inbound false mask parsed = RecvOutcome.fragmentationPanic := by
  subst hm
  exact ⟨rfl, rfl⟩

/-- Witness for C7: an unmasked non-final frame whose payload would parse
fine still panics on the fragmentation assertion. -/
theorem fin_false_fails_fast_witness :
    inbound_route false false (some (Json.obj [])) = InboundRoute.terminateError
    ∧ handle_inbound false false (some (Json.obj [])) = RecvOutcome.fragmentationPanic :=
  fin_false_fails_fast false (some (Json.obj [])) rfl

/-- Helper: below the usize wrap, the counter state after `n` calls is `n`. -/
theorem method_id_below_wrap (n : Nat) (h : n < 18446744073709551616) :
    method_id_after n = n := by
  induction n with
  | zero => rfl
  | succ k ih =>
    have hk : k < 18446744073709551616 := Nat.lt_of_succ_lt h
    have hs : method_id_after (k + 1) = (method_id_after k + 1) % 18446744073709551616 := rfl
    rw [hs, ih hk]
    exact Nat.mod_eq_of_lt h

/-- Claim C5: on a freshly connected `WebSocketTarget` the first
`call_method` serializes its message with id 0 and the second with id 1,
and the assigned ids strictly increase with the call index (below the
`usize` wrap), so no two calls on the instance share an id. -/
theorem call_method_ids (i j : Nat) (hij : i < j) (hj : j < 18446744073709551616) :
    assigned_id 0 = 0 ∧ assigned_id 1 = 1 ∧ assigned_id i < assigned_id j := by
  have hi : i < 18446744073709551616 := Nat.lt_trans hij hj
  have h1 : assigned_id i = i := method_id_below_wrap i hi
  have h2 : assigned_id j = j := method_id_below_wrap j hj
  exact ⟨rfl, method_id_below_wrap 1 (by decide), by rw [h1, h2]; exact hij⟩

/-- Witness for C5: the first two calls receive ids 0 and 1, in order. -/
theorem call_method_ids_witness :
    assigned_id 0 = 0 ∧ assigned_id 1 = 1 ∧ assigned_id 0 < assigned_id 1 :=
  call_method_ids 0 1 (by decide) (by decide)

/-- Helper: `position` finds nothing when no element satisfies the
predicate. -/
theorem position_eq_none {pred : Nat → Bool} {l : List Nat}
    (h : ∀ b ∈ l, pred b = false) : position pred l = none := by
  induction l with
  | nil => rfl
  | cons b rest ih =>
    have hb := h b (by simp)
    have hr := ih (fun x hx => h x (by simp [hx]))
    simp [position, hb, hr]

/-- Helper: a found position points at an element satisfying the
predicate. -/
theorem position_some {pred : Nat → Bool} : ∀ {l : List Nat} {i : Nat},
    position pred l = some i → ∃ b, l.get? i = some b ∧ pred b = true := by
  intro l
  induction l with
  | nil => intro i h; simp [position] at h
  | cons x rest ih =>
    intro i h
    by_cases hx : pred x
    · simp [position, hx] at h
      exact ⟨x, by simp [← h], hx⟩
    · simp [position, hx] at h
      obtain ⟨j, hj, hji⟩ := h
      obtain ⟨b, hb, hpb⟩ := ih hj
      refine ⟨b, ?_, hpb⟩
      rw [← hji]
      exact hb

/-- Helper: when the head fails the predicate, a found position is a
successor pointing into the tail. -/
theorem position_some_cons_of_head_false {pred : Nat → Bool} {x : Nat}
    {rest : List Nat} {i : Nat} (hx : pred x = false)
    (h : position pred (x :: rest) = some i) :
    ∃ j, i = j + 1 ∧ position pred rest = some j := by
  simp [position, hx] at h
  obtain ⟨j, hj, hji⟩ := h
  exact ⟨j, hji.symm, hj⟩

/-- Helper: an indexed element splits `drop` into a cons. -/
theorem drop_eq_cons_of_get? {l : List Nat} : ∀ {n b : Nat},
    l.get? n = some b → l.drop n = b :: l.drop (n + 1) := by
  induction l with
  | nil => intro n b h; simp [List.get?] at h
  | cons x rest ih =>
    intro n b h
    cases n with
    | zero => simp [List.get?] at h; simp [h]
    | succ m =>
      simp only [List.get?] at h
      simpa [List.drop] using ih h

/-- Helper: a one-element UTF-8 sequence headed by an ASCII byte. -/
theorem isUtf8Char_ascii {b : Nat} (hb : b < 128) : IsUtf8Char [b] := hb

/-- Helper: a UTF-8 scalar encoding is nonempty. -/
theorem isUtf8Char_ne_nil {c : List Nat} (h : IsUtf8Char c) : c ≠ [] := by
  intro he
  rw [he] at h
  exact h.elim

/-- Helper: a scalar encoding that starts with an ASCII byte is that single
byte — multi-byte encodings have lead bytes of at least 0xC2. -/
theorem utf8char_ascii_singleton {a : Nat} {t : List Nat}
    (h : IsUtf8Char (a :: t)) (ha : a < 128) : t = [] := by
  match t with
  | [] => rfl
  | [b] => simp only [IsUtf8Char, isCont] at h; omega
  | [b, c] => simp only [IsUtf8Char, isCont] at h; omega
  | [b, c, d] => simp only [IsUtf8Char, isCont] at h; omega
  | e1 :: e2 :: e3 :: e4 :: t' => exact h.elim

/-- Helper: every byte of a scalar encoding after the first is a
continuation byte, hence at least 0x80. -/
theorem utf8char_tail_ge_128 {a : Nat} {t : List Nat}
    (h : IsUtf8Char (a :: t)) {b : Nat} (hb : b ∈ t) : 128 ≤ b := by
  match t with
  | [] => simp at hb
  | [x] =>
    simp only [IsUtf8Char, isCont] at h
    simp at hb
    omega
  | [x, y] =>
    simp only [IsUtf8Char, isCont] at h
    simp at hb
    omega
  | [x, y, z] =>
    simp only [IsUtf8Char, isCont] at h
    simp at hb
    omega
  | e1 :: e2 :: e3 :: e4 :: t' => exact h.elim

/-- Helper: well-formed UTF-8 splits at every occurrence of an ASCII byte:
the part before it and the part from it on are well-formed again.  This is
the boundary property behind slicing a `str` at ASCII delimiters. -/
theorem utf8_split {b : Nat} (hb : b < 128) {l : List Nat} (hl : Utf8Valid l) :
    ∀ {xs ys : List Nat}, l = xs ++ b :: ys → Utf8Valid xs ∧ Utf8Valid (b :: ys) := by
  induction hl with
  | nil =>
    intro xs ys he
    exact absurd he.symm (by simp)
  | cons c rest hc hrest ih =>
    intro xs ys he
    rcases List.append_eq_append_iff.mp he with ⟨a', hxs, hrest'⟩ | ⟨c', hc', hbys⟩
    · obtain ⟨va', vbys⟩ := ih hrest'
      exact ⟨hxs ▸ Utf8Valid.cons c a' hc va', vbys⟩
    · cases c' with
      | nil =>
        have hcx : c = xs := by simpa using hc'
        have hr : rest = b :: ys := by simpa using hbys.symm
        have vc : Utf8Valid c := by
          have := Utf8Valid.cons c [] hc .nil
          simpa using this
        exact ⟨hcx ▸ vc, hr ▸ hrest⟩
      | cons b' t =>
        have hbt : b = b' ∧ ys = t ++ rest := by simpa using hbys
        obtain ⟨hb'', hys⟩ := hbt
        subst hb''
        cases xs with
        | nil =>
          have hct : c = b :: t := by simpa using hc'
          have hcb : IsUtf8Char (b :: t) := by rw [← hct]; exact hc
          have ht : t = [] := utf8char_ascii_singleton hcb hb
          subst ht
          refine ⟨.nil, ?_⟩
          have hys2 : ys = rest := by simpa using hys
          have := Utf8Valid.cons [b] rest (isUtf8Char_ascii hb) hrest
          simpa [hys2] using this
        | cons x xs' =>
          have hct : c = x :: (xs' ++ b :: t) := by simpa using hc'
          have hcb : IsUtf8Char (x :: (xs' ++ b :: t)) := by rw [← hct]; exact hc
          have : 128 ≤ b := utf8char_tail_ge_128 hcb (by simp)
          omega

/-- Helper: an ASCII byte found at index `p` of well-formed UTF-8 splits
`take`/`drop` into well-formed parts. -/
theorem utf8_take_drop {l : List Nat} {p b : Nat} (hv : Utf8Valid l)
    (hg : l.get? p = some b) (hb : b < 128) :
    Utf8Valid (l.take p) ∧ Utf8Valid (l.drop p) := by
  have hd : l.drop p = b :: l.drop (p + 1) := drop_eq_cons_of_get? hg
  have he : l = l.take p ++ b :: l.drop (p + 1) := by
    conv_lhs => rw [← List.take_append_drop p l]
    rw [hd]
  have hs := utf8_split hb hv he
  exact ⟨hs.1, hd ▸ hs.2⟩

/-- Helper: peeling an ASCII head off well-formed UTF-8 leaves well-formed
UTF-8. -/
theorem utf8_cons_ascii {b : Nat} {ys : List Nat} (hv : Utf8Valid (b :: ys))
    (hb : b < 128) : Utf8Valid ys := by
  have key : ∀ L, Utf8Valid L → L = b :: ys → Utf8Valid ys := by
    intro L hL
    induction hL with
    | nil => intro he; exact absurd he (by simp)
    | cons c rest hc hrest ih =>
      intro he
      cases c with
      | nil => exact hc.elim
      | cons x t =>
        have hxb : x = b ∧ t ++ rest = ys := by simpa using he
        obtain ⟨hxb', hty⟩ := hxb
        subst hxb'
        have ht : t = [] := utf8char_ascii_singleton hc hb
        subst ht
        simpa [← hty] using hrest
  exact key (b :: ys) hv rfl

/-- Helper: an all-ASCII byte list is well-formed UTF-8. -/
theorem ascii_utf8valid : ∀ {l : List Nat}, (∀ b ∈ l, b < 128) → Utf8Valid l := by
  intro l h
  induction l with
  | nil => exact .nil
  | cons x rest ih =>
    have hx : IsUtf8Char [x] := isUtf8Char_ascii (h x (by simp))
    have hr : Utf8Valid rest := ih (fun b hb => h b (by simp [hb]))
    simpa using Utf8Valid.cons [x] rest hx hr

/-- Helper: `position` finds nothing when the element is absent. -/
theorem position_eq_none_of_not_mem {a : Nat} {l : List Nat} (h : a ∉ l) :
    position (· == a) l = none :=
  position_eq_none (fun b hb => by
    simp only [beq_eq_false_iff_ne, ne_eq]
    intro hba
    subst hba
    exact h hb)

/-- Claim C9: whenever `parse_method_call` succeeds on a well-formed UTF-8
line, the domain and name byte slices it extracts — and converts with
`String::from_utf8_unchecked` — are themselves well-formed UTF-8: the
unchecked casts behave as validated decodes, because both slice boundaries
sit at ASCII delimiter bytes (the first dot and the first opening
parenthesis), and ASCII bytes are always scalar boundaries in well-formed
UTF-8. -/
theorem parse_method_call_strings_wellformed (pj : List Nat → Option Json)
    (bytes : List Nat) (mc : MethodCall) (hv : Utf8Valid bytes)
    (hp : parse_method_call pj bytes = some mc) :
    Utf8Valid mc.domain ∧ Utf8Valid mc.name := by
  unfold parse_method_call at hp
  cases hdot : position (· == 46) bytes with
  | none => simp [hdot] at hp
  | some dot =>
  simp only [hdot] at hp
  cases hp40 : position (· == 40) (bytes.drop dot) with
  | none => simp [hp40] at hp
  | some p =>
  simp only [hp40] at hp
  cases hpos : position (· == 41) (bytes.drop (dot + p)).reverse with
  | none => simp [hpos] at hp
  | some pos =>
  simp only [hpos] at hp
  obtain ⟨b46, hg46, he46⟩ := position_some hdot
  have hb46 : b46 = 46 := by simpa using he46
  subst hb46
  have htd := utf8_take_drop hv hg46 (by omega)
  have hd : bytes.drop dot = 46 :: bytes.drop (dot + 1) := drop_eq_cons_of_get? hg46
  have hvd : Utf8Valid (bytes.drop (dot + 1)) := by
    have h46 : Utf8Valid (46 :: bytes.drop (dot + 1)) := by
      rw [← hd]
      exact htd.2
    exact utf8_cons_ascii h46 (by omega)
  rw [hd] at hp40
  obtain ⟨j, hji, hj⟩ := position_some_cons_of_head_false (by decide) hp40
  obtain ⟨b40, hg40, he40⟩ := position_some hj
  have hb40 : b40 = 40 := by simpa using he40
  subst hb40
  have hpe : dot + p - (dot + 1) = j := by omega
  have hnm : Utf8Valid ((bytes.drop (dot + 1)).take (dot + p - (dot + 1))) := by
    rw [hpe]
    exact (utf8_take_drop hvd hg40 (by omega)).1
  split at hp
  · have hmc := Option.some.inj hp
    rw [← hmc]
    exact ⟨htd.1, hnm⟩
  · split at hp
    · simp at hp
    · have hmc := Option.some.inj hp
      rw [← hmc]
      exact ⟨htd.1, hnm⟩

/-- Witness for C9: parsing the line "Page.navigate()" yields well-formed
domain "Page" and name "navigate". -/
theorem parse_method_call_strings_wellformed_witness :
    Utf8Valid (str_bytes "Page") ∧ Utf8Valid (str_bytes "navigate") :=
  parse_method_call_strings_wellformed (fun _ => none) (str_bytes "Page.navigate()")
    ⟨str_bytes "Page", str_bytes "navigate", Json.obj []⟩
    (ascii_utf8valid (by decide)) rfl

/-- Claim C10: `parse_method_call` returns `none` when the line has no dot,
or no opening parenthesis at or after the first dot, or no closing
parenthesis at or after that opening one, or when the non-empty text
between the opening parenthesis and the last closing one is rejected by the
JSON parser; when that text is empty the result is a `MethodCall` whose
params is exactly the empty JSON object. -/
theorem parse_method_call_none_cases (pj : List Nat → Option Json) (bytes : List Nat) :
    (46 ∉ bytes → parse_method_call pj bytes = none)
    ∧ (∀ dot, position (· == 46) bytes = some dot →
        40 ∉ bytes.drop dot → parse_method_call pj bytes = none)
    ∧ (∀ dot p, position (· == 46) bytes = some dot →
        position (· == 40) (bytes.drop dot) = some p →
        41 ∉ bytes.drop (dot + p) → parse_method_call pj bytes = none)
    ∧ (∀ dot p pos, position (· == 46) bytes = some dot →
        position (· == 40) (bytes.drop dot) = some p →
        position (· == 41) (bytes.drop (dot + p)).reverse = some pos →
        ((bytes.drop (dot + p + 1)).take
            (dot + p + (bytes.length - (dot + p) - pos) - 1 - (dot + p + 1)) ≠ [] →
          pj ((bytes.drop (dot + p + 1)).take
            (dot + p + (bytes.length - (dot + p) - pos) - 1 - (dot + p + 1))) = none →
          parse_method_call pj bytes = none)
        ∧ ((bytes.drop (dot + p + 1)).take
            (dot + p + (bytes.length - (dot + p) - pos) - 1 - (dot + p + 1)) = [] →
          parse_method_call pj bytes =
            some ⟨bytes.take dot, (bytes.drop (dot + 1)).take (dot + p - (dot + 1)),
                  Json.obj []⟩)) := by
  refine ⟨?_, ?_, ?_, ?_⟩
  · intro h
    unfold parse_method_call
    simp only [position_eq_none_of_not_mem h]
  · intro dot hdot h
    unfold parse_method_call
    simp only [hdot, position_eq_none_of_not_mem h]
  · intro dot p hdot hp40 h
    have h' : (41 : Nat) ∉ (bytes.drop (dot + p)).reverse := by
      simpa using h
    unfold parse_method_call
    simp only [hdot, hp40, position_eq_none_of_not_mem h']
  · intro dot p pos hdot hp40 hpos
    constructor
    · intro hne hpj
      have hlen : ¬((bytes.drop (dot + p + 1)).take
          (dot + p + (bytes.length - (dot + p) - pos) - 1 - (dot + p + 1))).length = 0 :=
        fun h0 => hne (List.length_eq_zero.mp h0)
      unfold parse_method_call
      simp only [hdot, hp40, hpos, if_neg hlen, hpj]
    · intro he
      have hlen : ((bytes.drop (dot + p + 1)).take
          (dot + p + (bytes.length - (dot + p) - pos) - 1 - (dot + p + 1))).length = 0 :=
        List.length_eq_zero.mpr he
      unfold parse_method_call
      simp only [hdot, hp40, hpos, if_pos hlen]

/-- Witness for C10: each branch exercised on a concrete line — no dot, no
opening parenthesis, no closing parenthesis, rejected params text, empty
params text. -/
theorem parse_method_call_none_cases_witness :
    parse_method_call (fun _ => none) (str_bytes "hello") = none
    ∧ parse_method_call (fun _ => none) (str_bytes "a.b") = none
    ∧ parse_method_call (fun _ => none) (str_bytes "a.b(") = none
    ∧ parse_method_call (fun _ => none) (str_bytes "a.b(x)") = none
    ∧ parse_method_call (fun _ => none) (str_bytes "a.b()") =
        some ⟨str_bytes "a", str_bytes "b", Json.obj []⟩ := by
  refine ⟨?_, ?_, ?_, ?_, ?_⟩
  · exact (parse_method_call_none_cases (fun _ => none) (str_bytes "hello")).1 (by decide)
  · exact (parse_method_call_none_cases (fun _ => none) (str_bytes "a.b")).2.1 1
      (by decide) (by decide)
  · exact (parse_method_call_none_cases (fun _ => none) (str_bytes "a.b(")).2.2.1 1 2
      (by decide) (by decide) (by decide)
  · exact ((parse_method_call_none_cases (fun _ => none) (str_bytes "a.b(x)")).2.2.2 1 2 0
      (by decide) (by decide) (by decide)).1 (by decide) rfl
  · exact ((parse_method_call_none_cases (fun _ => none) (str_bytes "a.b()")).2.2.2 1 2 0
      (by decide) (by decide) (by decide)).2 (by decide)

end CdpRs
